import Mathlib

/-!
Run-time kernel selection for z/Architecture (`driver/others/dynamic_zarch.c`).

A shallow embedding of the dispatcher that picks, once per process, the set of
kernels (`gotoblas_ZARCH_GENERIC`, `gotoblas_Z13`, `gotoblas_Z14`) OpenBLAS uses.

Conventions of the embedding.

* A C string is the list of its character codes.  The terminator is implicit:
  reading at or after the end of the list yields NUL (`0`), and a `0` inside
  the list terminates the string there, exactly as it would in memory.
* The global pointer `gotoblas` is an `Option gotoblas_t` (`none` is `NULL`).
* Preprocessor symbols and the contents of the externally supplied kernel
  tables are fields of `Build`; the process environment is `Env`.
* Calls that leave the translation unit (`openblas_warning`, the `init` hook of
  a kernel table, `exit`) are recorded: the first two as `Event`s in the
  process log, the last as the `Outcome` of the call.
-/

namespace DynamicZarch

/-! ## Data model -/

/-- The kernel tables declared `extern gotoblas_t gotoblas_...` (lines 49-55);
a value of this type stands for the address of the table. -/
inductive gotoblas_t
  | gotoblas_ZARCH_GENERIC
  | gotoblas_Z13
  | gotoblas_Z14
  deriving DecidableEq, Repr

open gotoblas_t

/-- What is fixed when the library is built and linked: the preprocessor
symbols of lines 5-21, the bit positions of the two `HWCAP_S390_*` flags (they
come from the system headers, each is a single capability flag), and for every
kernel table whether its `init` member is a non-null function pointer. -/
structure Build where
  HAVE_Z13_SUPPORT : Bool
  HAVE_Z14_SUPPORT : Bool
  HAVE_GETAUXVAL : Bool
  VX_bit : Nat
  VXE_bit : Nat
  has_init : gotoblas_t → Bool

/-- What the process reads from its surroundings: the two environment
variables (`none` when `getenv` returns `NULL`) and `getauxval(AT_HWCAP)`. -/
structure Env where
  OPENBLAS_CORETYPE : Option (List Nat)
  LD_HWCAP_MASK : Option (List Nat)
  AT_HWCAP : Nat
  deriving DecidableEq, Repr

/-- Calls observable from outside: `openblas_warning(verbose, msg)` and the
invocation `gotoblas->init()` of the `init` hook of a kernel table. -/
inductive Event
  | warning (verbose : Nat) (msg : List Nat)
  | init_hook (core : gotoblas_t)
  deriving DecidableEq, Repr

/-- How a call ends: it returns to the caller, or the process ends in
`exit(status)`. -/
inductive Outcome
  | returned
  | exited (status : Nat)
  deriving DecidableEq, Repr

/-- The process as far as this file is concerned: the global `gotoblas` and the
log of events so far (oldest first). -/
structure Process where
  gotoblas : Option gotoblas_t
  log : List Event
  deriving DecidableEq, Repr

/-- Character codes of a string literal of the source. -/
def lit (s : String) : List Nat := s.toList.map Char.toNat

/-- The characters of a C string: everything before the first NUL. -/
def c_str (s : List Nat) : List Nat := s.takeWhile (fun c => c != 0)

/-- `HWCAP_S390_VX`, the flag of the Vector Facility. -/
def HWCAP_S390_VX (b : Build) : Nat := 2 ^ b.VX_bit

/-- `HWCAP_S390_VXE`, the flag of the Vector-Enhancements Facility 1. -/
def HWCAP_S390_VXE (b : Build) : Nat := 2 ^ b.VXE_bit

/-! ## C library functions used by the file -/

/-- `ULONG_MAX` of the 64-bit target. -/
def ULONG_MAX : Nat := 2 ^ 64 - 1

/-- `isspace` in the C locale. -/
def isspace (c : Nat) : Bool := c == 32 || (9 ≤ c && c ≤ 13)

/-- `tolower` in the C locale. -/
def tolower (c : Nat) : Nat := if 65 ≤ c ∧ c ≤ 90 then c + 32 else c

/-- Value of a character as a digit of `strtoul` (`0-9`, then letters of
either case from ten on). -/
def digit_value (c : Nat) : Option Nat :=
  if 48 ≤ c ∧ c ≤ 57 then some (c - 48)
  else if 97 ≤ c ∧ c ≤ 122 then some (c - 87)
  else if 65 ≤ c ∧ c ≤ 90 then some (c - 55)
  else none

/-- The digit loop of `strtoul`: consumes the longest run of digits of the
base and accumulates their value (unbounded here, clamped by the caller). -/
def parse_digits (base : Nat) : List Nat → Nat → Nat
  | [], acc => acc
  | c :: cs, acc =>
    match digit_value c with
    | some d => if d < base then parse_digits base cs (acc * base + d) else acc
    | none => acc

/-- `strtoul(nptr, NULL, 0)`: leading white space, an optional sign, base 16
after `0x`/`0X`, base 8 after another leading `0`, base 10 otherwise; the value
is `ULONG_MAX` on overflow and is negated modulo `2^64` after a minus sign; a
string without a numeral gives `0`. -/
def strtoul0 (nptr : List Nat) : Nat :=
  let s := nptr.dropWhile isspace
  let signed : Bool × List Nat :=
    match s with
    | 45 :: r => (true, r)
    | 43 :: r => (false, r)
    | _ => (false, s)
  let based : Nat × List Nat :=
    match signed.2 with
    | 48 :: x :: r => if x = 120 ∨ x = 88 then (16, r) else (8, signed.2)
    | 48 :: [] => (8, signed.2)
    | _ => (10, signed.2)
  let v := parse_digits based.1 based.2 0
  if ULONG_MAX < v then ULONG_MAX
  else if signed.1 then (2 ^ 64 - v) % 2 ^ 64
  else v

/-- `strncasecmp(s1, s2, n)`: compares at most `n` characters ignoring case,
stopping at the first difference or at the terminator of `s1`. -/
def strncasecmp : List Nat → List Nat → Nat → Int
  | _, _, 0 => 0
  | s1, s2, n + 1 =>
    let c1 := tolower (s1.headD 0)
    let c2 := tolower (s2.headD 0)
    if c1 = 0 ∨ c1 ≠ c2 then (c1 : Int) - (c2 : Int)
    else strncasecmp s1.tail s2.tail n

/-- The `n` bytes `strncpy(dest, src, n)` writes to `dest`: the characters of
`src` (at most `n`), then NUL padding up to `n`. -/
def strncpy (src : List Nat) (n : Nat) : List Nat :=
  (c_str src).take n ++ List.replicate (n - ((c_str src).take n).length) 0

/-- The string `snprintf(buf, size, fmt)` leaves in `buf` for a format without
conversions: at most `size - 1` characters of it. -/
def snprintf (size : Nat) (fmt : List Nat) : List Nat := fmt.take (size - 1)

/-! ## The translation unit -/

/-- `get_hwcap` (lines 23-36 with `getauxval`, lines 41-45 without): the
capability word of the OS, restricted by `LD_HWCAP_MASK` when that is set. -/
def get_hwcap (b : Build) (env : Env) : Nat :=
  if b.HAVE_GETAUXVAL then
    match env.LD_HWCAP_MASK with
    | some maskenv => env.AT_HWCAP &&& strtoul0 maskenv
    | none => env.AT_HWCAP
  else 0

/-- `NUM_CORETYPES` (line 57). -/
def NUM_CORETYPES : Nat := 4

/-- The table `corename` (lines 61-66). -/
def corename : List (List Nat) :=
  [lit "unknown", lit "Z13", lit "Z14", lit "ZARCH_GENERIC"]

/-- The entry `corename[i]`. -/
def corename_at (i : Nat) : List Nat := corename.getD i []

/-- `gotoblas_corename` (lines 68-78), as a function of the global `gotoblas`. -/
def gotoblas_corename (b : Build) (gotoblas : Option gotoblas_t) : List Nat :=
  if b.HAVE_Z13_SUPPORT && gotoblas == some gotoblas_Z13 then corename_at 1
  else if b.HAVE_Z14_SUPPORT && gotoblas == some gotoblas_Z14 then corename_at 2
  else if gotoblas == some gotoblas_ZARCH_GENERIC then corename_at 3
  else corename_at 0

/-- `get_coretype` (lines 88-109); `hwcap` is the value `get_hwcap()` returned
on line 90. -/
def get_coretype (b : Build) (hwcap : Nat) : gotoblas_t :=
  if b.HAVE_Z14_SUPPORT
      && ((hwcap &&& HWCAP_S390_VX b) != 0 && (hwcap &&& HWCAP_S390_VXE b) != 0) then
    gotoblas_Z14
  else if b.HAVE_Z13_SUPPORT && (hwcap &&& HWCAP_S390_VX b) != 0 then
    gotoblas_Z13
  else
    gotoblas_ZARCH_GENERIC

/-- The search loop of `force_coretype` (lines 114-124): the first index whose
name compares equal, `-1` when there is none. -/
def force_coretype_found (coretype : List Nat) : Int :=
  match (List.range NUM_CORETYPES).find?
      (fun i => strncasecmp coretype (corename_at i) 20 == 0) with
  | some i => (i : Int)
  | none => -1

/-- `force_coretype` (lines 111-136): the loop, then the `switch`, every branch
of which returns. -/
def force_coretype (b : Build) (coretype : List Nat) : Option gotoblas_t :=
  match force_coretype_found coretype with
  | 1 => if b.HAVE_Z13_SUPPORT then some gotoblas_Z13 else none
  | 2 => if b.HAVE_Z14_SUPPORT then some gotoblas_Z14 else none
  | 3 => some gotoblas_ZARCH_GENERIC
  | _ => none

/-- The text passed to `openblas_warning` on line 163. -/
def msg_fallback : List Nat :=
  snprintf 128 (lit "Failed to detect system, falling back to generic z support.\n")

/-- The text passed to `openblas_warning` on line 174. -/
def msg_no_init : List Nat :=
  lit "OpenBLAS : Architecture Initialization failed. No initialization function found.\n"

/-- The text built on lines 168-169: `coren` receives 20 bytes from `strncpy`,
and `sprintf` prints it up to its terminator between `"Core: "` and a newline.
(Bytes 20 and 21 of `coren` are never written; every name of the table is
shorter than 20, so the terminator is among the copied bytes.) -/
def msg_core (name : List Nat) : List Nat :=
  lit "Core: " ++ c_str (strncpy name 20) ++ lit "\n"

/-- `gotoblas_dynamic_init` (lines 141-177).  The `init` hook is code of the
kernel table: its call is logged, and it is taken to return without touching
`gotoblas`. -/
def gotoblas_dynamic_init (b : Build) (env : Env) (p : Process) : Process × Outcome :=
  if p.gotoblas.isSome then (p, Outcome.returned)
  else
    let chosen : Option gotoblas_t :=
      match env.OPENBLAS_CORETYPE with
      | some name => force_coretype b name
      | none => some (get_coretype b (get_hwcap b env))
    let p1 : Process :=
      match chosen with
      | none => ⟨some gotoblas_ZARCH_GENERIC, p.log ++ [Event.warning 1 msg_fallback]⟩
      | some g => ⟨some g, p.log⟩
    match p1.gotoblas with
    | some g =>
      if b.has_init g then
        (⟨p1.gotoblas,
          p1.log ++ [Event.warning 2 (msg_core (gotoblas_corename b p1.gotoblas)),
                     Event.init_hook g]⟩,
         Outcome.returned)
      else (⟨p1.gotoblas, p1.log ++ [Event.warning 0 msg_no_init]⟩, Outcome.exited 1)
    | none => (⟨p1.gotoblas, p1.log ++ [Event.warning 0 msg_no_init]⟩, Outcome.exited 1)

/-- `gotoblas_dynamic_quit` (lines 179-181). -/
def gotoblas_dynamic_quit (p : Process) : Process := ⟨none, p.log⟩

/-! ## Vocabulary of the specification -/

/-- Whether a kernel table exists in this build (the `extern` declarations of
lines 49-55: the generic one always, the others under their `#ifdef`). -/
def compiled_in (b : Build) : gotoblas_t → Bool
  | gotoblas_ZARCH_GENERIC => true
  | gotoblas_Z13 => b.HAVE_Z13_SUPPORT
  | gotoblas_Z14 => b.HAVE_Z14_SUPPORT

/-- Candidates of the selector, most specialized first. -/
def priority_order : List gotoblas_t :=
  [gotoblas_Z14, gotoblas_Z13, gotoblas_ZARCH_GENERIC]

/-- The capability flags (as bit positions) a kernel variant requires:
VX and VXE for Z14, VX for Z13, none for the generic one. -/
def required_bits (b : Build) : gotoblas_t → List Nat
  | gotoblas_Z14 => [b.VX_bit, b.VXE_bit]
  | gotoblas_Z13 => [b.VX_bit]
  | gotoblas_ZARCH_GENERIC => []

/-- A set of flags is contained in a bitmask: each of its bits is set. -/
def contained_in (bits : List Nat) (hwcap : Nat) : Bool :=
  bits.all (fun i => hwcap.testBit i)

/-- The selector in the words of the specification: the first candidate in
priority order that is compiled in and whose required flags are all in the
bitmask. -/
def first_candidate (b : Build) (hwcap : Nat) : Option gotoblas_t :=
  priority_order.find? (fun g => compiled_in b g && contained_in (required_bits b g) hwcap)

/-- Specialization rank: `ZARCH_GENERIC < Z13 < Z14`. -/
def rank : gotoblas_t → Nat
  | gotoblas_ZARCH_GENERIC => 0
  | gotoblas_Z13 => 1
  | gotoblas_Z14 => 2

/-- Two characters that are equal or are the two cases of one ASCII letter. -/
def same_letter (a b : Nat) : Bool :=
  a == b || (decide (65 ≤ a ∧ a ≤ 90) && b == a + 32)
    || (decide (65 ≤ b ∧ b ≤ 90) && a == b + 32)

/-- Two strings of the same length that differ at most in the case of ASCII
letters. -/
def differ_only_in_case : List Nat → List Nat → Bool
  | [], [] => true
  | a :: as, b :: bs => same_letter a b && differ_only_in_case as bs
  | _, _ => false

/-- The display name of a kernel table: the entry of `corename` that
`gotoblas_corename` pairs with it. -/
def display_name : gotoblas_t → List Nat
  | gotoblas_Z13 => corename_at 1
  | gotoblas_Z14 => corename_at 2
  | gotoblas_ZARCH_GENERIC => corename_at 3

/-- The process before the first call: `gotoblas` is `NULL`, nothing logged. -/
def fresh : Process := ⟨none, []⟩

/-- Successive calls of `gotoblas_dynamic_init`, one per environment, for as
long as the process lives. -/
def init_calls (b : Build) : List Env → Process → Process × Outcome
  | [], p => (p, Outcome.returned)
  | env :: rest, p =>
    match gotoblas_dynamic_init b env p with
    | (p1, Outcome.returned) => init_calls b rest p1
    | (p1, Outcome.exited status) => (p1, Outcome.exited status)

/-- Number of invocations of `init` hooks in a log. -/
def hook_count (log : List Event) : Nat :=
  (log.filter (fun e => match e with
    | Event.init_hook _ => true
    | Event.warning _ _ => false)).length

/-- The verbosity levels of the diagnostics in a log, in order. -/
def verbosities (log : List Event) : List Nat :=
  log.filterMap (fun e => match e with
    | Event.warning v _ => some v
    | Event.init_hook _ => none)

/-- A build like `full_build` whose kernel tables have no `init` hook. -/
def hookless_build : Build := ⟨true, true, true, 11, 13, fun _ => false⟩

/-- The kernel a call of `gotoblas_dynamic_init` from the unset state has
settled on when it reaches line 167: what `force_coretype` resolved, the
generic kernel when it resolved nothing, or what `get_coretype` detected when
there is no override. -/
def chosen_variant (b : Build) (env : Env) : gotoblas_t :=
  match env.OPENBLAS_CORETYPE with
  | some name => (force_coretype b name).getD gotoblas_ZARCH_GENERIC
  | none => get_coretype b (get_hwcap b env)

/-- The override is set and `force_coretype` does not resolve it. -/
def override_unresolved (b : Build) (env : Env) : Bool :=
  match env.OPENBLAS_CORETYPE with
  | some name => (force_coretype b name).isNone
  | none => false

/-- The selection state refers to nothing or to a kernel table of this build
(no other address can be written in the program). -/
def well_formed (b : Build) (gotoblas : Option gotoblas_t) : Bool :=
  match gotoblas with
  | none => true
  | some g => compiled_in b g

/-! ### Statement-level view of the tail of `force_coretype` (lines 126-138) -/

/-- The statements that occur there: `return value;` and the pair of lines
137-138, which formats a message and passes it to `openblas_warning`. -/
inductive Stmt
  | ret (value : Option gotoblas_t)
  | warn (verbose : Nat) (msg : List Nat)
  deriving DecidableEq, Repr

/-- Labels of a `switch` body. -/
inductive Label
  | case (n : Int)
  | default
  deriving DecidableEq, Repr

/-- The body of the `switch` of lines 126-136 as it is after preprocessing:
the labelled statements in source order, `case 1` and `case 2` only when their
symbol is defined. -/
def force_coretype_switch (b : Build) : List (Label × Stmt) :=
  (if b.HAVE_Z13_SUPPORT then [(Label.case 1, Stmt.ret (some gotoblas_Z13))] else [])
    ++ (if b.HAVE_Z14_SUPPORT then [(Label.case 2, Stmt.ret (some gotoblas_Z14))] else [])
    ++ [(Label.case 3, Stmt.ret (some gotoblas_ZARCH_GENERIC)),
        (Label.default, Stmt.ret none)]

/-- The statements of a `switch` body from a label on, to the end of the body. -/
def from_label (l : Label) : List (Label × Stmt) → Option (List Stmt)
  | [] => none
  | (l1, s) :: rest =>
    if l1 = l then some (s :: rest.map Prod.snd) else from_label l rest

/-- Where `switch (v)` continues: at `case v:` when the body has it, else at
`default:`, else behind the body. -/
def switch_jump (v : Int) (body : List (Label × Stmt)) : List Stmt :=
  match from_label (Label.case v) body with
  | some stmts => stmts
  | none => (from_label Label.default body).getD []

/-- Runs statements in order: the value of the first `return` reached (`none`
when control runs off the end) and the log extended by the warnings issued on
the way. -/
def run_stmts : List Stmt → List Event → Option (Option gotoblas_t) × List Event
  | [], log => (none, log)
  | Stmt.ret value :: _, log => (some value, log)
  | Stmt.warn verbose msg :: rest, log =>
    run_stmts rest (log ++ [Event.warning verbose msg])

/-- The text built on line 137. -/
def msg_not_found (coretype : List Nat) : List Nat :=
  snprintf 128 (lit "Core not found: " ++ c_str coretype ++ lit "\n")

/-- `force_coretype` statement by statement: the loop, the `switch`, then lines
137-138.  Gives the returned pointer (if a `return` is reached) and the
warnings issued. -/
def force_coretype_run (b : Build) (coretype : List Nat) :
    Option (Option gotoblas_t) × List Event :=
  run_stmts
    (switch_jump (force_coretype_found coretype) (force_coretype_switch b)
      ++ [Stmt.warn 1 (msg_not_found coretype)]) []

/-! ### Numerals of `LD_HWCAP_MASK` -/

/-- The number a list of digits denotes in a base, least significant first. -/
def positional (base : Nat) : List Nat → Nat
  | [] => 0
  | d :: ds => d + base * positional base ds

/-- A decimal digit character. -/
def is_dec_digit (c : Nat) : Bool := 48 ≤ c && c ≤ 57

/-- A hexadecimal digit character, of either case. -/
def is_hex_digit (c : Nat) : Bool :=
  (48 ≤ c && c ≤ 57) || (97 ≤ c && c ≤ 102) || (65 ≤ c && c ≤ 70)

/-- The value of a hexadecimal digit character. -/
def hex_digit_value (c : Nat) : Nat :=
  if c ≤ 57 then c - 48 else if 97 ≤ c then c - 87 else c - 55

/-- The integer a decimal numeral denotes: one or more decimal digits, without
a leading zero unless the numeral is `0`; `none` for any other string. -/
def decimal_value (s : List Nat) : Option Nat :=
  match s with
  | [] => none
  | c :: cs =>
    if s.all is_dec_digit && (c != 48 || cs.isEmpty) then
      some (positional 10 (s.reverse.map (fun d => d - 48)))
    else none

/-- The integer a hexadecimal numeral denotes: `0x` or `0X`, then one or more
hexadecimal digits; `none` for any other string. -/
def hex_value (s : List Nat) : Option Nat :=
  match s with
  | 48 :: x :: ds =>
    if (x == 120 || x == 88) && !ds.isEmpty && ds.all is_hex_digit then
      some (positional 16 (ds.reverse.map hex_digit_value))
    else none
  | _ => none

/-- The part of a string at which `strtoul` looks for a numeral: behind leading
white space and one optional sign. -/
def numeral_position (s : List Nat) : List Nat :=
  match s.dropWhile isspace with
  | 45 :: r => r
  | 43 :: r => r
  | r => r

/-- A string with no leading numeral: where a numeral would start there is no
decimal digit. -/
def no_leading_numeral (s : List Nat) : Bool :=
  match numeral_position s with
  | [] => true
  | c :: _ => !is_dec_digit c

/-- A build with both specialized kernels, `getauxval`, the Linux flag
positions (VX is bit 11, VXE is bit 13) and an `init` hook in every table. -/
def full_build : Build := ⟨true, true, true, 11, 13, fun _ => true⟩

/-! ## Auxiliary lemmas -/

theorem and_flag_ne_zero (hwcap i : Nat) :
    ((hwcap &&& 2 ^ i) != 0) = hwcap.testBit i := by
  rw [Nat.and_two_pow]
  cases hwcap.testBit i <;> simp

theorem get_coretype_testBit (b : Build) (hwcap : Nat) :
    get_coretype b hwcap =
      if b.HAVE_Z14_SUPPORT && (hwcap.testBit b.VX_bit && hwcap.testBit b.VXE_bit) then
        gotoblas_Z14
      else if b.HAVE_Z13_SUPPORT && hwcap.testBit b.VX_bit then gotoblas_Z13
      else gotoblas_ZARCH_GENERIC := by
  simp only [get_coretype, HWCAP_S390_VX, HWCAP_S390_VXE, and_flag_ne_zero]

theorem same_letter_iff (a b : Nat) : same_letter a b = true ↔ tolower a = tolower b := by
  unfold same_letter tolower
  simp only [Bool.or_eq_true, Bool.and_eq_true, decide_eq_true_eq, beq_iff_eq]
  split <;> split <;> omega

theorem differ_only_in_case_iff (s t : List Nat) :
    differ_only_in_case s t = true ↔ s.map tolower = t.map tolower := by
  induction s generalizing t with
  | nil => cases t <;> simp [differ_only_in_case]
  | cons a as ih =>
    cases t with
    | nil => simp [differ_only_in_case]
    | cons b bs => simp [differ_only_in_case, same_letter_iff, ih]

theorem tolower_eq_zero (c : Nat) : tolower c = 0 ↔ c = 0 := by
  unfold tolower; split <;> omega

/-- Against a name without NUL that is shorter than the bound, `strncasecmp`
returns `0` exactly when the whole first string equals the name up to case. -/
theorem strncasecmp_eq_zero_iff (t : List Nat) :
    ∀ (s : List Nat) (n : Nat), (∀ c ∈ t, c ≠ 0) → t.length < n →
      (strncasecmp s t n = 0 ↔ (c_str s).map tolower = t.map tolower) := by
  induction t with
  | nil =>
    intro s n _ hn
    obtain ⟨m, rfl⟩ : ∃ m, n = m + 1 := ⟨n - 1, by simp at hn; omega⟩
    cases s with
    | nil => simp [strncasecmp, c_str, tolower]
    | cons a as =>
      by_cases ha : a = 0
      · subst ha; simp [strncasecmp, c_str, tolower]
      · have h1 : tolower a ≠ 0 := fun h => ha ((tolower_eq_zero a).1 h)
        have h0 : tolower 0 = 0 := by decide
        simp [strncasecmp, c_str, ha, h1, h0]
  | cons b bs ih =>
    intro s n hnz hn
    obtain ⟨m, rfl⟩ : ∃ m, n = m + 1 := ⟨n - 1, by simp at hn; omega⟩
    have hb : b ≠ 0 := hnz b (by simp)
    have hb1 : tolower b ≠ 0 := fun h => hb ((tolower_eq_zero b).1 h)
    have h0 : tolower 0 = 0 := by decide
    cases s with
    | nil =>
      simp [strncasecmp, c_str, h0]
      omega
    | cons a as =>
      by_cases ha : a = 0
      · subst ha
        simp [strncasecmp, c_str, h0]
        omega
      · have h1 : tolower a ≠ 0 := fun h => ha ((tolower_eq_zero a).1 h)
        have ih1 := ih as m (fun c hc => hnz c (by simp [hc])) (by simp at hn; omega)
        by_cases hab : tolower a = tolower b
        · simp [strncasecmp, c_str, ha, h1, hab, hb1]
          simpa [c_str] using ih1
        · simp [strncasecmp, c_str, ha, h1, hab]
          omega

/-- The comparison of line 119 against entry `i` of the table, for the four
indices of the loop. -/
theorem compare_entry (s : List Nat) (i : Nat) (hi : i < 4) :
    (strncasecmp s (corename_at i) 20 == 0)
      = decide ((c_str s).map tolower = (corename_at i).map tolower) := by
  have h : strncasecmp s (corename_at i) 20 = 0
      ↔ (c_str s).map tolower = (corename_at i).map tolower := by
    apply strncasecmp_eq_zero_iff
    · interval_cases i <;> decide
    · interval_cases i <;> decide
  by_cases hc : (c_str s).map tolower = (corename_at i).map tolower
  · simp [hc, h.2 hc]
  · have : strncasecmp s (corename_at i) 20 ≠ 0 := fun h0 => hc (h.1 h0)
    simp [hc, this]

/-- What `force_coretype` computes, in terms of the lower-cased characters of
its argument. -/
theorem force_coretype_eq (b : Build) (s : List Nat) :
    force_coretype b s =
      if (c_str s).map tolower = lit "z13" then
        (if b.HAVE_Z13_SUPPORT then some gotoblas_Z13 else none)
      else if (c_str s).map tolower = lit "z14" then
        (if b.HAVE_Z14_SUPPORT then some gotoblas_Z14 else none)
      else if (c_str s).map tolower = lit "zarch_generic" then some gotoblas_ZARCH_GENERIC
      else none := by
  have e0 : (corename_at 0).map tolower = lit "unknown" := by decide
  have e1 : (corename_at 1).map tolower = lit "z13" := by decide
  have e2 : (corename_at 2).map tolower = lit "z14" := by decide
  have e3 : (corename_at 3).map tolower = lit "zarch_generic" := by decide
  have r : List.range NUM_CORETYPES = [0, 1, 2, 3] := by decide
  unfold force_coretype force_coretype_found
  rw [r]
  simp only [List.find?, compare_entry s 0 (by omega), compare_entry s 1 (by omega),
    compare_entry s 2 (by omega), compare_entry s 3 (by omega), e0, e1, e2, e3]
  generalize (c_str s).map tolower = x
  have d1 : lit "z13" ≠ lit "unknown" := by decide
  have d2 : lit "z14" ≠ lit "unknown" := by decide
  have d3 : lit "zarch_generic" ≠ lit "unknown" := by decide
  have d4 : lit "z14" ≠ lit "z13" := by decide
  have d5 : lit "zarch_generic" ≠ lit "z13" := by decide
  have d6 : lit "zarch_generic" ≠ lit "z14" := by decide
  by_cases h1 : x = lit "z13"
  · subst h1; simp [d1]
  · by_cases h2 : x = lit "z14"
    · subst h2; simp [d2, d4]
    · by_cases h3 : x = lit "zarch_generic"
      · subst h3; simp [d3, d5, d6]
      · by_cases h0 : x = lit "unknown"
        · subst h0; simp [d1.symm, d2.symm, d3.symm]
        · simp [h0, h1, h2, h3]

theorem get_coretype_compiled (b : Build) (hwcap : Nat) :
    compiled_in b (get_coretype b hwcap) = true := by
  rw [get_coretype_testBit]
  obtain ⟨z13, z14, aux, vx, vxe, hook⟩ := b
  cases z14 <;> cases z13 <;> cases hvx : hwcap.testBit vx <;>
    cases hvxe : hwcap.testBit vxe <;> simp [compiled_in]

/-! ## The selector `get_coretype` -/

/-- C1: for every bitmask and build, `get_coretype` returns a kernel table (its
type has no null), namely the first candidate in the order Z14, Z13,
ZARCH_GENERIC that is compiled in and whose required flags are all set in
`hwcap`; the result itself is compiled in and has all its requirements. -/
theorem get_coretype_first_candidate (b : Build) (hwcap : Nat) :
    first_candidate b hwcap = some (get_coretype b hwcap)
      ∧ compiled_in b (get_coretype b hwcap) = true
      ∧ contained_in (required_bits b (get_coretype b hwcap)) hwcap = true := by
  rw [get_coretype_testBit]
  obtain ⟨z13, z14, aux, vx, vxe, hook⟩ := b
  cases z14 <;> cases z13 <;> cases hvx : hwcap.testBit vx <;>
    cases hvxe : hwcap.testBit vxe <;>
    simp [first_candidate, priority_order, compiled_in, required_bits, contained_in, hvx, hvxe]

/-- C2: with the build fixed, if every flag set in `B1` is also set in `B2`,
the kernel chosen for `B2` has at least the rank of the one chosen for `B1`. -/
theorem get_coretype_monotone (b : Build) (B1 B2 : Nat)
    (hsub : ∀ i, B1.testBit i = true → B2.testBit i = true) :
    rank (get_coretype b B1) ≤ rank (get_coretype b B2) := by
  have hvx := hsub b.VX_bit
  have hvxe := hsub b.VXE_bit
  rw [get_coretype_testBit, get_coretype_testBit]
  obtain ⟨z13, z14, aux, vx, vxe, hook⟩ := b
  cases z14 <;> cases z13 <;> cases h1 : B1.testBit vx <;> cases h2 : B1.testBit vxe <;>
    cases h3 : B2.testBit vx <;> cases h4 : B2.testBit vxe <;> simp_all [rank]

/-- Witness of C2: from VX alone (Z13) to VX and VXE (Z14) on the full build. -/
theorem get_coretype_monotone_witness :
    rank (get_coretype full_build (2 ^ 11)) = 1
      ∧ rank (get_coretype full_build (2 ^ 11 + 2 ^ 13)) = 2
      ∧ rank (get_coretype full_build (2 ^ 11)) ≤ rank (get_coretype full_build (2 ^ 11 + 2 ^ 13)) :=
  ⟨by decide, by decide,
    get_coretype_monotone full_build (2 ^ 11) (2 ^ 11 + 2 ^ 13) (by
      intro i hi
      rw [Nat.testBit_two_pow] at hi
      have : i = 11 := by simpa [eq_comm] using hi
      subst this
      decide)⟩

/-! ## The override `force_coretype` -/

theorem display_name_lower (v : gotoblas_t) :
    (display_name v).map tolower =
      match v with
      | gotoblas_Z13 => lit "z13"
      | gotoblas_Z14 => lit "z14"
      | gotoblas_ZARCH_GENERIC => lit "zarch_generic" := by
  cases v <;> decide

/-- A name that equals the display name of a compiled-in kernel up to case
resolves to that kernel. -/
theorem force_coretype_of_name (b : Build) (name : List Nat) (v : gotoblas_t)
    (hv : compiled_in b v = true)
    (hname : differ_only_in_case (c_str name) (display_name v) = true) :
    force_coretype b name = some v := by
  have h := (differ_only_in_case_iff _ _).1 hname
  rw [display_name_lower] at h
  rw [force_coretype_eq, h]
  cases v
  · have d5 : lit "zarch_generic" ≠ lit "z13" := by decide
    have d6 : lit "zarch_generic" ≠ lit "z14" := by decide
    simp [d5, d6]
  · simp only [compiled_in] at hv
    simp [hv]
  · have d4 : lit "z14" ≠ lit "z13" := by decide
    simp only [compiled_in] at hv
    simp [hv, d4]

/-- Whatever `force_coretype` returns is compiled in and is named by the
argument. -/
theorem force_coretype_some (b : Build) (s : List Nat) (v : gotoblas_t)
    (h : force_coretype b s = some v) :
    compiled_in b v = true ∧ differ_only_in_case (c_str s) (display_name v) = true := by
  rw [force_coretype_eq] at h
  rw [differ_only_in_case_iff, display_name_lower]
  by_cases h1 : (c_str s).map tolower = lit "z13"
  · rw [if_pos h1] at h
    cases hz : b.HAVE_Z13_SUPPORT <;> simp [hz] at h
    subst h
    exact ⟨hz, h1⟩
  · rw [if_neg h1] at h
    by_cases h2 : (c_str s).map tolower = lit "z14"
    · rw [if_pos h2] at h
      cases hz : b.HAVE_Z14_SUPPORT <;> simp [hz] at h
      subst h
      exact ⟨hz, h2⟩
    · rw [if_neg h2] at h
      by_cases h3 : (c_str s).map tolower = lit "zarch_generic"
      · rw [if_pos h3] at h
        simp at h
        subst h
        exact ⟨rfl, h3⟩
      · rw [if_neg h3] at h
        simp at h

/-- C6: `force_coretype` is a total function whose result, for every string, is
`NULL` or a compiled-in kernel that the string names; a string that names a
kernel absent from the build gives `NULL`, and so does a string that names no
kernel. -/
theorem force_coretype_total (b : Build) (s : List Nat) :
    (force_coretype b s = none
        ∨ ∃ v, force_coretype b s = some v ∧ compiled_in b v = true
            ∧ differ_only_in_case (c_str s) (display_name v) = true)
      ∧ (∀ v, differ_only_in_case (c_str s) (display_name v) = true →
            compiled_in b v = false → force_coretype b s = none)
      ∧ ((∀ v, differ_only_in_case (c_str s) (display_name v) = false) →
            force_coretype b s = none) := by
  refine ⟨?_, ?_, ?_⟩
  · cases h : force_coretype b s with
    | none => exact Or.inl rfl
    | some v => exact Or.inr ⟨v, rfl, force_coretype_some b s v h⟩
  · intro v hname hv
    cases h : force_coretype b s with
    | none => rfl
    | some w =>
      obtain ⟨hw, hwname⟩ := force_coretype_some b s w h
      have e1 := (differ_only_in_case_iff _ _).1 hname
      have e2 := (differ_only_in_case_iff _ _).1 hwname
      rw [e1] at e2
      have : v = w := by
        revert e2
        cases v <;> cases w <;> decide
      subst this
      rw [hw] at hv
      cases hv
  · intro hno
    cases h : force_coretype b s with
    | none => rfl
    | some w =>
      have := (force_coretype_some b s w h).2
      rw [hno w] at this
      cases this

/-- C7: two names that differ only in the case of ASCII letters get the same
answer from `force_coretype`, in every build. -/
theorem force_coretype_case_insensitive (b : Build) (s t : List Nat)
    (h : differ_only_in_case (c_str s) (c_str t) = true) :
    force_coretype b s = force_coretype b t := by
  rw [force_coretype_eq, force_coretype_eq, (differ_only_in_case_iff _ _).1 h]

/-- Witness of C7: `zArCh_generic` and `ZARCH_GENERIC`. -/
theorem force_coretype_case_insensitive_witness :
    differ_only_in_case (c_str (lit "zArCh_generic")) (c_str (lit "ZARCH_GENERIC")) = true
      ∧ force_coretype full_build (lit "zArCh_generic")
          = force_coretype full_build (lit "ZARCH_GENERIC") :=
  ⟨by decide,
    force_coretype_case_insensitive full_build (lit "zArCh_generic") (lit "ZARCH_GENERIC")
      (by decide)⟩

/-- C8, as stated, fails: in a build with Z13 the name `Z13` followed by one
space is not resolved, while `Z13` is. -/
theorem force_coretype_trailing_space_differs :
    force_coretype full_build (lit "Z13") = some gotoblas_Z13
      ∧ force_coretype full_build (lit "Z13 ") = none
      ∧ force_coretype full_build (lit "Z13 ") ≠ force_coretype full_build (lit "z13") := by
  decide

/-- C8, amended: in every build `z13` and `Z13` get the same answer (Z13 when
it is compiled in, `NULL` otherwise), and `Z13` followed by a space gets
`NULL`: the bound of 20 exceeds the length of the name, so the terminator of
the name is compared with the space. -/
theorem force_coretype_z13_spellings (b : Build) :
    force_coretype b (lit "z13") = force_coretype b (lit "Z13")
      ∧ force_coretype b (lit "Z13")
          = (if b.HAVE_Z13_SUPPORT then some gotoblas_Z13 else none)
      ∧ force_coretype b (lit "Z13 ") = none := by
  have a1 : (c_str (lit "z13")).map tolower = lit "z13" := by decide
  have a2 : (c_str (lit "Z13")).map tolower = lit "z13" := by decide
  have a3 : (c_str (lit "Z13 ")).map tolower ≠ lit "z13" := by decide
  have a4 : (c_str (lit "Z13 ")).map tolower ≠ lit "z14" := by decide
  have a5 : (c_str (lit "Z13 ")).map tolower ≠ lit "zarch_generic" := by decide
  refine ⟨?_, ?_, ?_⟩
  · rw [force_coretype_eq, force_coretype_eq, a1, a2]
  · rw [force_coretype_eq, a2]; simp
  · rw [force_coretype_eq]; simp [a3, a4, a5]

/-! ## The life cycle: `gotoblas_dynamic_init` and `gotoblas_dynamic_quit` -/

/-- From the unset state with an override that `force_coretype` does not
resolve: line 164 selects the generic kernel after the warning of line 163. -/
theorem init_unresolved (b : Build) (env : Env) (name : List Nat) (log : List Event)
    (hset : env.OPENBLAS_CORETYPE = some name) (hnone : force_coretype b name = none) :
    gotoblas_dynamic_init b env ⟨none, log⟩ =
      if b.has_init gotoblas_ZARCH_GENERIC then
        (⟨some gotoblas_ZARCH_GENERIC,
          log ++ [Event.warning 1 msg_fallback,
                  Event.warning 2 (msg_core (corename_at 3)),
                  Event.init_hook gotoblas_ZARCH_GENERIC]⟩, Outcome.returned)
      else
        (⟨some gotoblas_ZARCH_GENERIC,
          log ++ [Event.warning 1 msg_fallback, Event.warning 0 msg_no_init]⟩,
         Outcome.exited 1) := by
  cases hh : b.has_init gotoblas_ZARCH_GENERIC <;>
    simp [gotoblas_dynamic_init, hset, hnone, hh, gotoblas_corename]

/-- From the unset state with an override that `force_coretype` resolves to
`v`: `v` is selected, whatever the capability word. -/
theorem init_resolved (b : Build) (env : Env) (name : List Nat) (v : gotoblas_t)
    (log : List Event)
    (hset : env.OPENBLAS_CORETYPE = some name) (hres : force_coretype b name = some v) :
    gotoblas_dynamic_init b env ⟨none, log⟩ =
      if b.has_init v then
        (⟨some v, log ++ [Event.warning 2 (msg_core (gotoblas_corename b (some v))),
                          Event.init_hook v]⟩, Outcome.returned)
      else (⟨some v, log ++ [Event.warning 0 msg_no_init]⟩, Outcome.exited 1) := by
  cases hh : b.has_init v <;> simp [gotoblas_dynamic_init, hset, hres, hh]

/-- The events of a call from the unset state do not depend on the log so far:
they are those of the same call in a fresh process, appended to it. -/
theorem init_unset_log (b : Build) (env : Env) (log : List Event) :
    gotoblas_dynamic_init b env ⟨none, log⟩ =
      (⟨(gotoblas_dynamic_init b env fresh).1.gotoblas,
        log ++ (gotoblas_dynamic_init b env fresh).1.log⟩,
       (gotoblas_dynamic_init b env fresh).2) := by
  unfold fresh
  cases ho : env.OPENBLAS_CORETYPE with
  | none =>
    cases hh : b.has_init (get_coretype b (get_hwcap b env)) <;>
      simp [gotoblas_dynamic_init, ho, hh]
  | some name =>
    cases hf : force_coretype b name with
    | none =>
      rw [init_unresolved b env name log ho hf, init_unresolved b env name [] ho hf]
      cases b.has_init gotoblas_ZARCH_GENERIC <;> simp
    | some v =>
      rw [init_resolved b env name v log ho hf, init_resolved b env name v [] ho hf]
      cases b.has_init v <;> simp

/-- C3, as stated, fails: with Z13 and Z14 compiled in, VX and VXE present and
the override `bogus`, detection would pick Z14 but the generic kernel is
selected. -/
theorem unresolved_override_skips_detection :
    force_coretype full_build (lit "bogus") = none
      ∧ get_coretype full_build
          (get_hwcap full_build ⟨some (lit "bogus"), none, 2 ^ 11 + 2 ^ 13⟩) = gotoblas_Z14
      ∧ (gotoblas_dynamic_init full_build ⟨some (lit "bogus"), none, 2 ^ 11 + 2 ^ 13⟩
          fresh).1.gotoblas = some gotoblas_ZARCH_GENERIC
      ∧ (gotoblas_dynamic_init full_build ⟨some (lit "bogus"), none, 2 ^ 11 + 2 ^ 13⟩
          fresh).1.gotoblas
        ≠ some (get_coretype full_build
            (get_hwcap full_build ⟨some (lit "bogus"), none, 2 ^ 11 + 2 ^ 13⟩)) := by
  decide

/-- C3, amended: when `OPENBLAS_CORETYPE` is set to a name `force_coretype` does
not resolve, a call from the unset state emits the warning of line 163 first
and selects the generic kernel without running detection; the selection equals
what `get_coretype` returns for the probed and masked capability word exactly
when that is the generic kernel. -/
theorem unresolved_override_selects_generic (b : Build) (env : Env) (name : List Nat)
    (p : Process) (hunset : p.gotoblas = none)
    (hset : env.OPENBLAS_CORETYPE = some name) (hnone : force_coretype b name = none) :
    (gotoblas_dynamic_init b env p).1.gotoblas = some gotoblas_ZARCH_GENERIC
      ∧ (∃ rest, (gotoblas_dynamic_init b env p).1.log
            = p.log ++ Event.warning 1 msg_fallback :: rest)
      ∧ ((gotoblas_dynamic_init b env p).1.gotoblas
            = some (get_coretype b (get_hwcap b env))
          ↔ get_coretype b (get_hwcap b env) = gotoblas_ZARCH_GENERIC) := by
  obtain ⟨g, log⟩ := p
  simp only at hunset
  subst hunset
  rw [init_unresolved b env name log hset hnone]
  cases b.has_init gotoblas_ZARCH_GENERIC <;> simp [eq_comm]

/-- Witness of the amended C3: the override `bogus` on the full build. -/
theorem unresolved_override_selects_generic_witness :
    (gotoblas_dynamic_init full_build ⟨some (lit "bogus"), none, 2 ^ 11⟩ fresh).1.gotoblas
        = some gotoblas_ZARCH_GENERIC
      ∧ (∃ rest, (gotoblas_dynamic_init full_build ⟨some (lit "bogus"), none, 2 ^ 11⟩
            fresh).1.log = fresh.log ++ Event.warning 1 msg_fallback :: rest)
      ∧ ((gotoblas_dynamic_init full_build ⟨some (lit "bogus"), none, 2 ^ 11⟩
            fresh).1.gotoblas
            = some (get_coretype full_build
                (get_hwcap full_build ⟨some (lit "bogus"), none, 2 ^ 11⟩))
          ↔ get_coretype full_build (get_hwcap full_build ⟨some (lit "bogus"), none, 2 ^ 11⟩)
              = gotoblas_ZARCH_GENERIC) :=
  unresolved_override_selects_generic full_build ⟨some (lit "bogus"), none, 2 ^ 11⟩
    (lit "bogus") fresh rfl rfl (by decide)

/-- C4, as stated, fails: on the build whose tables have no `init` hook, the
unresolved override `bogus` is followed by an error-level diagnostic: the call
logs verbosities 1 and 0 (lines 163 and 174) and ends in `exit(1)`. -/
theorem unresolved_override_error_without_hook :
    force_coretype hookless_build (lit "bogus") = none
      ∧ (gotoblas_dynamic_init hookless_build ⟨some (lit "bogus"), none, 0⟩
          fresh).1.gotoblas = some gotoblas_ZARCH_GENERIC
      ∧ (gotoblas_dynamic_init hookless_build ⟨some (lit "bogus"), none, 0⟩ fresh).1.log
          = [Event.warning 1 msg_fallback, Event.warning 0 msg_no_init]
      ∧ verbosities
          (gotoblas_dynamic_init hookless_build ⟨some (lit "bogus"), none, 0⟩ fresh).1.log
          = [1, 0]
      ∧ (gotoblas_dynamic_init hookless_build ⟨some (lit "bogus"), none, 0⟩ fresh).2
          = Outcome.exited 1 := by
  decide

/-- C4, amended: when `OPENBLAS_CORETYPE` is set and `force_coretype` returns
`NULL`, a call from the unset state selects the generic kernel whatever the
capability word, and the first thing it emits is the warning of line 163 at
verbosity 1.  When the generic kernel has an `init` hook the call returns, and
its diagnostics are that warning and the `Core:` message at verbosity 2, none
at verbosity 0.  When it has none, the warning is followed by the verbosity-0
diagnostic of line 174 and `exit(1)`. -/
theorem unresolved_override_soft_failure (b : Build) (env : Env) (name : List Nat)
    (p : Process) (hunset : p.gotoblas = none)
    (hset : env.OPENBLAS_CORETYPE = some name) (hnone : force_coretype b name = none) :
    (gotoblas_dynamic_init b env p).1.gotoblas = some gotoblas_ZARCH_GENERIC
      ∧ ((gotoblas_dynamic_init b env p).1.log.drop p.log.length).head?
          = some (Event.warning 1 msg_fallback)
      ∧ (b.has_init gotoblas_ZARCH_GENERIC = true →
          (gotoblas_dynamic_init b env p).2 = Outcome.returned
            ∧ (gotoblas_dynamic_init b env p).1.log
                = p.log ++ [Event.warning 1 msg_fallback,
                            Event.warning 2 (msg_core (lit "ZARCH_GENERIC")),
                            Event.init_hook gotoblas_ZARCH_GENERIC]
            ∧ verbosities ((gotoblas_dynamic_init b env p).1.log.drop p.log.length) = [1, 2])
      ∧ (b.has_init gotoblas_ZARCH_GENERIC = false →
          (gotoblas_dynamic_init b env p).2 = Outcome.exited 1
            ∧ (gotoblas_dynamic_init b env p).1.log
                = p.log ++ [Event.warning 1 msg_fallback, Event.warning 0 msg_no_init]
            ∧ verbosities ((gotoblas_dynamic_init b env p).1.log.drop p.log.length) = [1, 0]) := by
  obtain ⟨g, log⟩ := p
  simp only at hunset
  subst hunset
  rw [init_unresolved b env name log hset hnone]
  have e3 : corename_at 3 = lit "ZARCH_GENERIC" := rfl
  cases b.has_init gotoblas_ZARCH_GENERIC <;> simp [verbosities, e3]

/-- Witness of the amended C4: the override `z15` (no such kernel) with VX and VXE present. -/
theorem unresolved_override_soft_failure_witness :
    force_coretype full_build (lit "z15") = none
      ∧ (gotoblas_dynamic_init full_build ⟨some (lit "z15"), none, 2 ^ 11 + 2 ^ 13⟩
          fresh).1.gotoblas = some gotoblas_ZARCH_GENERIC
      ∧ (gotoblas_dynamic_init full_build ⟨some (lit "z15"), none, 2 ^ 11 + 2 ^ 13⟩
          fresh).2 = Outcome.returned
      ∧ verbosities ((gotoblas_dynamic_init full_build
          ⟨some (lit "z15"), none, 2 ^ 11 + 2 ^ 13⟩ fresh).1.log.drop fresh.log.length)
          = [1, 2] :=
  have h := unresolved_override_soft_failure full_build
    ⟨some (lit "z15"), none, 2 ^ 11 + 2 ^ 13⟩ (lit "z15") fresh rfl rfl (by decide)
  ⟨by decide, h.1, (h.2.2.1 rfl).1, (h.2.2.1 rfl).2.2⟩

/-- C5: when `OPENBLAS_CORETYPE` holds a name equal, up to the case of ASCII
letters, to the display name of a kernel `v` of the build, a call from the
unset state selects `v`; the capability word plays no part: any other
environment with the same override gives the same process and outcome. -/
theorem override_precedence (b : Build) (env : Env) (name : List Nat) (v : gotoblas_t)
    (p : Process) (hunset : p.gotoblas = none) (hv : compiled_in b v = true)
    (hname : differ_only_in_case (c_str name) (display_name v) = true)
    (hset : env.OPENBLAS_CORETYPE = some name) :
    (gotoblas_dynamic_init b env p).1.gotoblas = some v
      ∧ ∀ env2 : Env, env2.OPENBLAS_CORETYPE = some name →
          gotoblas_dynamic_init b env2 p = gotoblas_dynamic_init b env p := by
  obtain ⟨g, log⟩ := p
  simp only at hunset
  subst hunset
  have hres := force_coretype_of_name b name v hv hname
  refine ⟨?_, ?_⟩
  · rw [init_resolved b env name v log hset hres]
    cases b.has_init v <;> simp
  · intro env2 hset2
    rw [init_resolved b env name v log hset hres, init_resolved b env2 name v log hset2 hres]

/-- Witness of C5: the override `z13` with no capability at all, where
detection would pick the generic kernel. -/
theorem override_precedence_witness :
    get_coretype full_build (get_hwcap full_build ⟨some (lit "z13"), none, 0⟩)
        = gotoblas_ZARCH_GENERIC
      ∧ ((gotoblas_dynamic_init full_build ⟨some (lit "z13"), none, 0⟩ fresh).1.gotoblas
            = some gotoblas_Z13
          ∧ ∀ env2 : Env, env2.OPENBLAS_CORETYPE = some (lit "z13") →
              gotoblas_dynamic_init full_build env2 fresh
                = gotoblas_dynamic_init full_build ⟨some (lit "z13"), none, 0⟩ fresh) :=
  ⟨by decide,
    override_precedence full_build ⟨some (lit "z13"), none, 0⟩ (lit "z13") gotoblas_Z13 fresh
      rfl (by decide) (by decide) rfl⟩

/-- A call in a process whose `gotoblas` is set returns at line 148. -/
theorem init_when_set (b : Build) (env : Env) (p : Process)
    (hset : p.gotoblas.isSome = true) :
    gotoblas_dynamic_init b env p = (p, Outcome.returned) := by
  simp [gotoblas_dynamic_init, hset]

/-- Any number of calls in a process whose `gotoblas` is set leave it as it is. -/
theorem init_calls_when_set (b : Build) (envs : List Env) (p : Process)
    (hset : p.gotoblas.isSome = true) :
    init_calls b envs p = (p, Outcome.returned) := by
  induction envs with
  | nil => rfl
  | cons env rest ih => simp [init_calls, init_when_set b env p hset, ih]

/-- A call from the unset state that returns has set `gotoblas` and invoked
exactly one hook more than the log held before. -/
theorem init_returned (b : Build) (env : Env) (log : List Event) (p1 : Process)
    (h : gotoblas_dynamic_init b env ⟨none, log⟩ = (p1, Outcome.returned)) :
    p1.gotoblas.isSome = true ∧ hook_count p1.log = hook_count log + 1 := by
  cases ho : env.OPENBLAS_CORETYPE with
  | none =>
    cases hh : b.has_init (get_coretype b (get_hwcap b env)) <;>
      simp [gotoblas_dynamic_init, ho, hh] at h
    subst h
    simp [hook_count]
  | some name =>
    cases hf : force_coretype b name with
    | none =>
      rw [init_unresolved b env name log ho hf] at h
      cases hh : b.has_init gotoblas_ZARCH_GENERIC <;> simp [hh] at h
      subst h
      simp [hook_count]
    | some v =>
      rw [init_resolved b env name v log ho hf] at h
      cases hh : b.has_init v <;> simp [hh] at h
      subst h
      simp [hook_count]

/-- C9: in a process whose `gotoblas` is set, a call under any environment
returns and leaves `gotoblas` and the log as they were (no hook, no
diagnostic, no exit), and so does any sequence of calls; hence after a first
call in a fresh process that returned, any further calls leave the selection
as the first call made it, with one hook invocation in all. -/
theorem gotoblas_dynamic_init_idempotent (b : Build) (p : Process) (env : Env)
    (envs : List Env) (hset : p.gotoblas.isSome = true) :
    gotoblas_dynamic_init b env p = (p, Outcome.returned)
      ∧ init_calls b envs p = (p, Outcome.returned)
      ∧ ∀ (env0 : Env) (p1 : Process),
          gotoblas_dynamic_init b env0 fresh = (p1, Outcome.returned) →
            init_calls b (env0 :: envs) fresh = (p1, Outcome.returned)
              ∧ hook_count p1.log = 1 := by
  refine ⟨init_when_set b env p hset, init_calls_when_set b envs p hset, ?_⟩
  intro env0 p1 h1
  have hr := init_returned b env0 [] p1 h1
  refine ⟨?_, by simpa [hook_count] using hr.2⟩
  simp only [init_calls, h1]
  exact init_calls_when_set b envs p1 hr.1

/-- Witness of C9: Z14 was selected with VX and VXE; later calls with the
override `Z13`, with a mask that clears everything, or with no capability
change nothing. -/
theorem gotoblas_dynamic_init_idempotent_witness :
    gotoblas_dynamic_init full_build ⟨none, none, 2 ^ 11 + 2 ^ 13⟩ fresh
        = (⟨some gotoblas_Z14,
            [Event.warning 2 (msg_core (lit "Z14")), Event.init_hook gotoblas_Z14]⟩,
           Outcome.returned)
      ∧ init_calls full_build
          [⟨none, none, 2 ^ 11 + 2 ^ 13⟩, ⟨some (lit "Z13"), none, 2 ^ 11⟩,
            ⟨none, some (lit "0"), 2 ^ 11⟩, ⟨none, none, 0⟩] fresh
        = (⟨some gotoblas_Z14,
            [Event.warning 2 (msg_core (lit "Z14")), Event.init_hook gotoblas_Z14]⟩,
           Outcome.returned) :=
  ⟨by decide,
    ((gotoblas_dynamic_init_idempotent full_build
        ⟨some gotoblas_Z14,
          [Event.warning 2 (msg_core (lit "Z14")), Event.init_hook gotoblas_Z14]⟩
        ⟨some (lit "Z13"), none, 2 ^ 11⟩
        [⟨some (lit "Z13"), none, 2 ^ 11⟩, ⟨none, some (lit "0"), 2 ^ 11⟩, ⟨none, none, 0⟩]
        rfl).2.2 ⟨none, none, 2 ^ 11 + 2 ^ 13⟩ _ (by decide)).1⟩

/-- C10: `gotoblas_dynamic_quit` sets `gotoblas` to `NULL` and logs nothing;
a call of `gotoblas_dynamic_init` under `E` after it selects what a first call
under `E` in a fresh process selects, ends the same way and emits the same
events; in particular, with the environment unchanged, quitting and calling
again reproduces the selection. -/
theorem quit_then_init (b : Build) (p : Process) (E : Env) :
    gotoblas_dynamic_quit p = ⟨none, p.log⟩
      ∧ (gotoblas_dynamic_init b E (gotoblas_dynamic_quit p)).1.gotoblas
          = (gotoblas_dynamic_init b E fresh).1.gotoblas
      ∧ (gotoblas_dynamic_init b E (gotoblas_dynamic_quit p)).2
          = (gotoblas_dynamic_init b E fresh).2
      ∧ (gotoblas_dynamic_init b E (gotoblas_dynamic_quit p)).1.log
          = p.log ++ (gotoblas_dynamic_init b E fresh).1.log
      ∧ (gotoblas_dynamic_init b E
            (gotoblas_dynamic_quit (gotoblas_dynamic_init b E fresh).1)).1.gotoblas
          = (gotoblas_dynamic_init b E fresh).1.gotoblas := by
  have key : ∀ q : Process, gotoblas_dynamic_init b E (gotoblas_dynamic_quit q)
      = (⟨(gotoblas_dynamic_init b E fresh).1.gotoblas,
          q.log ++ (gotoblas_dynamic_init b E fresh).1.log⟩,
         (gotoblas_dynamic_init b E fresh).2) := by
    intro q
    unfold gotoblas_dynamic_quit
    exact init_unset_log b E q.log
  refine ⟨rfl, ?_, ?_, ?_, ?_⟩ <;> rw [key]

/-! ## Initialization outcome, diagnostics and the reported name -/

/-- A call from the unset state, in full: the selection is `chosen_variant`,
the warning of line 163 is issued when the override is unresolved, and the
`init` member decides between lines 168-171 and lines 174-175. -/
theorem init_unset_eq (b : Build) (env : Env) (log : List Event) :
    gotoblas_dynamic_init b env ⟨none, log⟩ =
      if b.has_init (chosen_variant b env) then
        (⟨some (chosen_variant b env),
          log ++ (if override_unresolved b env then [Event.warning 1 msg_fallback] else [])
            ++ [Event.warning 2 (msg_core (gotoblas_corename b (some (chosen_variant b env)))),
                Event.init_hook (chosen_variant b env)]⟩, Outcome.returned)
      else
        (⟨some (chosen_variant b env),
          log ++ (if override_unresolved b env then [Event.warning 1 msg_fallback] else [])
            ++ [Event.warning 0 msg_no_init]⟩, Outcome.exited 1) := by
  cases ho : env.OPENBLAS_CORETYPE with
  | none =>
    cases hh : b.has_init (get_coretype b (get_hwcap b env)) <;>
      simp [gotoblas_dynamic_init, chosen_variant, override_unresolved, ho, hh]
  | some name =>
    cases hf : force_coretype b name with
    | none =>
      rw [init_unresolved b env name log ho hf]
      cases hh : b.has_init gotoblas_ZARCH_GENERIC <;>
        simp [chosen_variant, override_unresolved, ho, hf, hh, gotoblas_corename]
    | some v =>
      rw [init_resolved b env name v log ho hf]
      cases hh : b.has_init v <;> simp [chosen_variant, override_unresolved, ho, hf, hh]

/-- The kernel settled on is always one of the build. -/
theorem chosen_variant_compiled (b : Build) (env : Env) :
    compiled_in b (chosen_variant b env) = true := by
  unfold chosen_variant
  cases ho : env.OPENBLAS_CORETYPE with
  | none => exact (get_coretype_compiled b (get_hwcap b env))
  | some name =>
    cases hf : force_coretype b name with
    | none => simp [hf, compiled_in]
    | some v => simpa [hf] using (force_coretype_some b name v hf).1

/-- For a kernel of the build `gotoblas_corename` returns its display name. -/
theorem corename_of_compiled (b : Build) (g : gotoblas_t) (hg : compiled_in b g = true) :
    gotoblas_corename b (some g) = display_name g := by
  cases g <;> simp only [compiled_in] at hg <;>
    cases h13 : b.HAVE_Z13_SUPPORT <;> cases h14 : b.HAVE_Z14_SUPPORT <;>
    simp_all [gotoblas_corename, display_name]

/-- No display name is cut by the 20-byte copy of line 168. -/
theorem msg_core_display_name (g : gotoblas_t) :
    msg_core (display_name g) = lit "Core: " ++ display_name g ++ lit "\n" := by
  cases g <;> decide

/-- C11: a call from the unset state always leaves `gotoblas` at the kernel it
settled on; it ends in `exit(1)` exactly when that kernel has no `init` hook,
and then the last event is the verbosity-0 diagnostic of line 174 and no hook
was invoked; otherwise it returns, so after a return `gotoblas` is not `NULL`.
No other exit status occurs. -/
theorem missing_hook_only_fatal (b : Build) (env : Env) (p : Process)
    (hunset : p.gotoblas = none) :
    (gotoblas_dynamic_init b env p).1.gotoblas = some (chosen_variant b env)
      ∧ ((gotoblas_dynamic_init b env p).2 = Outcome.exited 1
          ↔ b.has_init (chosen_variant b env) = false)
      ∧ ((gotoblas_dynamic_init b env p).2 = Outcome.returned
          ↔ b.has_init (chosen_variant b env) = true)
      ∧ (b.has_init (chosen_variant b env) = false →
          (gotoblas_dynamic_init b env p).1.log.getLast? = some (Event.warning 0 msg_no_init)
            ∧ hook_count (gotoblas_dynamic_init b env p).1.log = hook_count p.log)
      ∧ ((gotoblas_dynamic_init b env p).2 = Outcome.returned →
          (gotoblas_dynamic_init b env p).1.gotoblas ≠ none) := by
  obtain ⟨g, log⟩ := p
  simp only at hunset
  subst hunset
  rw [init_unset_eq b env log]
  cases hh : b.has_init (chosen_variant b env) <;>
    cases hu : override_unresolved b env <;> simp [hook_count]

/-- Witness of C11: on the build without hooks the call exits with status 1
after the error diagnostic; on the full build the same call returns. -/
theorem missing_hook_only_fatal_witness :
    gotoblas_dynamic_init hookless_build ⟨none, none, 2 ^ 11⟩ fresh
        = (⟨some gotoblas_Z13, [Event.warning 0 msg_no_init]⟩, Outcome.exited 1)
      ∧ (gotoblas_dynamic_init full_build ⟨none, none, 2 ^ 11⟩ fresh).2 = Outcome.returned
      ∧ ((gotoblas_dynamic_init hookless_build ⟨none, none, 2 ^ 11⟩ fresh).2 = Outcome.exited 1
          ↔ hookless_build.has_init (chosen_variant hookless_build ⟨none, none, 2 ^ 11⟩)
              = false) :=
  ⟨by decide, by decide,
    (missing_hook_only_fatal hookless_build ⟨none, none, 2 ^ 11⟩ fresh rfl).2.1⟩

/-- C12, as stated, fails: on the build without hooks the call that exits
leaves `gotoblas` pointing at the generic kernel, not `NULL`. -/
theorem fatal_path_leaves_state_set :
    fresh.gotoblas = none
      ∧ (gotoblas_dynamic_init hookless_build ⟨none, none, 0⟩ fresh).2 = Outcome.exited 1
      ∧ (gotoblas_dynamic_init hookless_build ⟨none, none, 0⟩ fresh).1.gotoblas
          = some gotoblas_ZARCH_GENERIC
      ∧ (gotoblas_dynamic_init hookless_build ⟨none, none, 0⟩ fresh).1.gotoblas ≠ none := by
  decide

/-- C12, amended: when a call from the unset state ends in `exit`, `gotoblas`
already points at the kernel settled on (it was assigned on line 153, 157 or
164, before the test of line 167); that kernel has no `init` hook, no hook was
invoked, and the status is 1. -/
theorem fatal_path_state (b : Build) (env : Env) (p : Process) (status : Nat)
    (hunset : p.gotoblas = none)
    (hexit : (gotoblas_dynamic_init b env p).2 = Outcome.exited status) :
    (gotoblas_dynamic_init b env p).1.gotoblas = some (chosen_variant b env)
      ∧ b.has_init (chosen_variant b env) = false
      ∧ hook_count (gotoblas_dynamic_init b env p).1.log = hook_count p.log
      ∧ status = 1 := by
  obtain ⟨g, log⟩ := p
  simp only at hunset
  subst hunset
  rw [init_unset_eq b env log] at hexit ⊢
  cases hh : b.has_init (chosen_variant b env) <;>
    cases hu : override_unresolved b env <;> simp_all [hook_count]

/-- Witness of the amended C12: the override `Z14` on the build without
hooks. -/
theorem fatal_path_state_witness :
    (gotoblas_dynamic_init hookless_build ⟨some (lit "Z14"), none, 0⟩ fresh).1.gotoblas
        = some (chosen_variant hookless_build ⟨some (lit "Z14"), none, 0⟩)
      ∧ chosen_variant hookless_build ⟨some (lit "Z14"), none, 0⟩ = gotoblas_Z14 :=
  ⟨(fatal_path_state hookless_build ⟨some (lit "Z14"), none, 0⟩ fresh 1 rfl (by decide)).1,
    by decide⟩

/-- C14: when a call from the unset state returns, what it added to the log is
the warning of line 163 if the override was unresolved, then one message at
verbosity 2 whose text is `Core: `, the whole display name of the kernel
settled on (which is what `gotoblas_corename` returns) and a newline, then the
one invocation of that kernel's `init` hook. -/
theorem successful_init_log (b : Build) (env : Env) (p : Process)
    (hunset : p.gotoblas = none)
    (hret : (gotoblas_dynamic_init b env p).2 = Outcome.returned) :
    (gotoblas_dynamic_init b env p).1.log
        = p.log ++ (if override_unresolved b env then [Event.warning 1 msg_fallback] else [])
            ++ [Event.warning 2
                  (lit "Core: " ++ display_name (chosen_variant b env) ++ lit "\n"),
                Event.init_hook (chosen_variant b env)]
      ∧ gotoblas_corename b (gotoblas_dynamic_init b env p).1.gotoblas
          = display_name (chosen_variant b env)
      ∧ hook_count ((gotoblas_dynamic_init b env p).1.log.drop p.log.length) = 1
      ∧ (verbosities ((gotoblas_dynamic_init b env p).1.log.drop p.log.length)).count 2
          = 1 := by
  obtain ⟨g, log⟩ := p
  simp only at hunset
  subst hunset
  have hname := corename_of_compiled b _ (chosen_variant_compiled b env)
  rw [init_unset_eq b env log] at hret ⊢
  cases hh : b.has_init (chosen_variant b env)
  · simp [hh] at hret
  · simp only [hh, if_true, hname, msg_core_display_name]
    cases hu : override_unresolved b env <;> simp [hook_count, verbosities]

/-- Witness of C14: detection of Z14 on the full build. -/
theorem successful_init_log_witness :
    (gotoblas_dynamic_init full_build ⟨none, none, 2 ^ 11 + 2 ^ 13⟩ fresh).1.log
      = [Event.warning 2 (lit "Core: Z14\n"), Event.init_hook gotoblas_Z14] :=
  have h := (successful_init_log full_build ⟨none, none, 2 ^ 11 + 2 ^ 13⟩ fresh rfl
    (by decide)).1
  h.trans (by decide)

/-- `gotoblas_corename` returns the sentinel exactly for a state that is no
kernel of the build. -/
theorem corename_unknown_iff (b : Build) (st : Option gotoblas_t) :
    gotoblas_corename b st = lit "unknown"
      ↔ ¬ ∃ g, st = some g ∧ compiled_in b g = true := by
  have e1 : corename_at 1 ≠ lit "unknown" := by decide
  have e2 : corename_at 2 ≠ lit "unknown" := by decide
  have e3 : corename_at 3 ≠ lit "unknown" := by decide
  have e0 : corename_at 0 = lit "unknown" := by decide
  cases st with
  | none => simp [gotoblas_corename, e0]
  | some g =>
    cases g <;> cases h13 : b.HAVE_Z13_SUPPORT <;> cases h14 : b.HAVE_Z14_SUPPORT <;>
      simp [gotoblas_corename, compiled_in, e0, e1, e2, e3, h13, h14]

/-- C15: for a state that refers to a kernel of the build `gotoblas_corename`
returns the display name of that kernel, and it returns `unknown` only for a
state that is no kernel of the build (such as `NULL`); after a call of
`gotoblas_dynamic_init` that returns, from a state that is `NULL` or a kernel
of the build, the name is not `unknown`; and with VX and VXE in the probed
capability word, no override and Z13 and Z14 compiled in, the name after the
call is `Z14`. -/
theorem corename_reports_active (b : Build) (env : Env) (p : Process) :
    (∀ g, p.gotoblas = some g → compiled_in b g = true →
        gotoblas_corename b p.gotoblas = display_name g)
      ∧ (gotoblas_corename b p.gotoblas = lit "unknown" →
          ¬ ∃ g, p.gotoblas = some g ∧ compiled_in b g = true)
      ∧ gotoblas_corename b none = lit "unknown"
      ∧ (well_formed b p.gotoblas = true →
          (gotoblas_dynamic_init b env p).2 = Outcome.returned →
          gotoblas_corename b (gotoblas_dynamic_init b env p).1.gotoblas ≠ lit "unknown")
      ∧ (p.gotoblas = none → env.OPENBLAS_CORETYPE = none →
          (get_hwcap b env).testBit b.VX_bit = true →
          (get_hwcap b env).testBit b.VXE_bit = true →
          b.HAVE_Z13_SUPPORT = true → b.HAVE_Z14_SUPPORT = true →
          gotoblas_corename b (gotoblas_dynamic_init b env p).1.gotoblas = lit "Z14") := by
  refine ⟨?_, ?_, ?_, ?_, ?_⟩
  · intro g hg hc
    rw [hg]
    exact corename_of_compiled b g hc
  · exact (corename_unknown_iff b p.gotoblas).1
  · exact (corename_unknown_iff b none).2 (by simp)
  · intro hwf hret hunk
    obtain ⟨st, log⟩ := p
    cases st with
    | none =>
      rw [init_unset_eq b env log] at hunk
      have hc := chosen_variant_compiled b env
      have hn : gotoblas_corename b (some (chosen_variant b env)) = lit "unknown" := by
        cases hh : b.has_init (chosen_variant b env) <;> simpa [hh] using hunk
      exact (corename_unknown_iff b _).1 hn ⟨_, rfl, hc⟩
    | some g =>
      rw [init_when_set b env ⟨some g, log⟩ rfl] at hunk
      exact (corename_unknown_iff b _).1 hunk ⟨g, rfl, hwf⟩
  · intro hunset ho hvx hvxe h13 h14
    obtain ⟨st, log⟩ := p
    simp only at hunset
    subst hunset
    have hch : chosen_variant b env = gotoblas_Z14 := by
      simp [chosen_variant, ho, get_coretype_testBit, hvx, hvxe, h14]
    have hn : gotoblas_corename b (some gotoblas_Z14) = lit "Z14" := by
      rw [corename_of_compiled b gotoblas_Z14 h14]; rfl
    rw [init_unset_eq b env log, hch]
    cases hh : b.has_init gotoblas_Z14 <;> simpa [hh] using hn

/-- Witness of C15: scenario A on the full build. -/
theorem corename_reports_active_witness :
    gotoblas_corename full_build
        (gotoblas_dynamic_init full_build ⟨none, none, 2 ^ 11 + 2 ^ 13⟩ fresh).1.gotoblas
      = lit "Z14" :=
  (corename_reports_active full_build ⟨none, none, 2 ^ 11 + 2 ^ 13⟩ fresh).2.2.2.2
    rfl rfl (by decide) (by decide) rfl rfl

/-- C16: in every build, a capability word without the VX flag makes
`get_coretype` return the generic kernel; so do the all-zero word and the word
`get_hwcap` returns when `getauxval` is not available. -/
theorem get_coretype_without_vx (b : Build) (hwcap : Nat)
    (hvx : hwcap.testBit b.VX_bit = false) :
    get_coretype b hwcap = gotoblas_ZARCH_GENERIC
      ∧ get_coretype b 0 = gotoblas_ZARCH_GENERIC
      ∧ ∀ env : Env, b.HAVE_GETAUXVAL = false →
          get_hwcap b env = 0
            ∧ get_coretype b (get_hwcap b env) = gotoblas_ZARCH_GENERIC := by
  have h0 : get_coretype b 0 = gotoblas_ZARCH_GENERIC := by
    simp [get_coretype_testBit]
  refine ⟨by simp [get_coretype_testBit, hvx], h0, ?_⟩
  intro env haux
  have hz : get_hwcap b env = 0 := by simp [get_hwcap, haux]
  rw [hz]
  exact ⟨rfl, h0⟩

/-- Witness of C16: VXE without VX on the full build. -/
theorem get_coretype_without_vx_witness :
    (2 ^ 13).testBit full_build.VX_bit = false
      ∧ get_coretype full_build (2 ^ 13) = gotoblas_ZARCH_GENERIC :=
  ⟨by decide, (get_coretype_without_vx full_build (2 ^ 13) (by decide)).1⟩

/-- C18: for a kernel `v` of the build, the name `gotoblas_corename` reports
for it is resolved by `force_coretype` to `v` again. -/
theorem corename_round_trip (b : Build) (v : gotoblas_t) (hv : compiled_in b v = true) :
    force_coretype b (gotoblas_corename b (some v)) = some v := by
  rw [corename_of_compiled b v hv]
  apply force_coretype_of_name b _ v hv
  cases v <;> decide

/-- Witness of C18: Z14 on the full build. -/
theorem corename_round_trip_witness :
    gotoblas_corename full_build (some gotoblas_Z14) = lit "Z14"
      ∧ force_coretype full_build (gotoblas_corename full_build (some gotoblas_Z14))
          = some gotoblas_Z14 :=
  ⟨by decide, corename_round_trip full_build gotoblas_Z14 rfl⟩

/-- C19: `force_coretype` returns a kernel only for a string that, taken whole
up to its terminator, equals the display name of that kernel up to case; in
every build the prefixes `Z1` and `ZARCH`, the extensions `Z13x` and `Z14 `,
and the table entry `unknown` give `NULL`. -/
theorem force_coretype_whole_name (b : Build) (s : List Nat) :
    (∀ v, force_coretype b s = some v →
        differ_only_in_case (c_str s) (display_name v) = true)
      ∧ force_coretype b (lit "Z1") = none
      ∧ force_coretype b (lit "ZARCH") = none
      ∧ force_coretype b (lit "Z13x") = none
      ∧ force_coretype b (lit "Z14 ") = none
      ∧ force_coretype b (lit "unknown") = none := by
  have none_of : ∀ t : List Nat, (c_str t).map tolower ≠ lit "z13" →
      (c_str t).map tolower ≠ lit "z14" → (c_str t).map tolower ≠ lit "zarch_generic" →
      force_coretype b t = none := by
    intro t h1 h2 h3
    rw [force_coretype_eq]
    simp [h1, h2, h3]
  refine ⟨fun v h => (force_coretype_some b s v h).2, ?_, ?_, ?_, ?_, ?_⟩ <;>
    exact none_of _ (by decide) (by decide) (by decide)

/-- Witness of C19: `zarch_generic` is resolved and is the display name up to
case. -/
theorem force_coretype_whole_name_witness :
    force_coretype full_build (lit "zarch_generic") = some gotoblas_ZARCH_GENERIC
      ∧ differ_only_in_case (c_str (lit "zarch_generic"))
          (display_name gotoblas_ZARCH_GENERIC) = true :=
  ⟨by decide,
    (force_coretype_whole_name full_build (lit "zarch_generic")).1
      gotoblas_ZARCH_GENERIC (by decide)⟩

/-! ## The dead warning of `force_coretype` -/

/-- Whatever the loop found, the `switch` of lines 126-136 reaches a `return`
with the value `force_coretype` computes, before any other statement. -/
theorem switch_returns (b : Build) (found : Int) (tail : List Stmt) (log : List Event) :
    run_stmts (switch_jump found (force_coretype_switch b) ++ tail) log
      = (some (match found with
          | 1 => if b.HAVE_Z13_SUPPORT then some gotoblas_Z13 else none
          | 2 => if b.HAVE_Z14_SUPPORT then some gotoblas_Z14 else none
          | 3 => some gotoblas_ZARCH_GENERIC
          | _ => none), log) := by
  obtain ⟨z13, z14, aux, vx, vxe, hook⟩ := b
  simp only
  by_cases h1 : found = 1
  · subst h1
    cases z13 <;> cases z14 <;>
      simp [force_coretype_switch, switch_jump, from_label, run_stmts]
  · by_cases h2 : found = 2
    · subst h2
      cases z13 <;> cases z14 <;>
        simp [force_coretype_switch, switch_jump, from_label, run_stmts]
    · by_cases h3 : found = 3
      · subst h3
        cases z13 <;> cases z14 <;>
          simp [force_coretype_switch, switch_jump, from_label, run_stmts]
      · have e1 : (1 : Int) ≠ found := fun h => h1 h.symm
        have e2 : (2 : Int) ≠ found := fun h => h2 h.symm
        have e3 : (3 : Int) ≠ found := fun h => h3 h.symm
        have hm : (match found with
            | 1 => if z13 then some gotoblas_Z13 else none
            | 2 => if z14 then some gotoblas_Z14 else none
            | 3 => some gotoblas_ZARCH_GENERIC
            | _ => none) = none := by
          split <;> first | rfl | contradiction
        rw [hm]
        cases z13 <;> cases z14 <;>
          simp [force_coretype_switch, switch_jump, from_label, run_stmts, e1, e2, e3]

/-- C17: run statement by statement, `force_coretype` reaches a `return` inside
its `switch` for every string and build, with the value of `force_coretype`
and without a call of `openblas_warning`: lines 137-138 are never executed.
Hence a call of `gotoblas_dynamic_init` with an unresolved override logs the
fixed text of line 162 at verbosity 1 and then only what the generic kernel's
`init` member decides; nothing in its log depends on the requested name. -/
theorem core_not_found_unreachable (b : Build) (s : List Nat) :
    force_coretype_run b s = (some (force_coretype b s), [])
      ∧ run_stmts (switch_jump (force_coretype_found s) (force_coretype_switch b)) []
          = (some (force_coretype b s), [])
      ∧ (∀ (env : Env) (p : Process), p.gotoblas = none →
          env.OPENBLAS_CORETYPE = some s → force_coretype b s = none →
          (gotoblas_dynamic_init b env p).1.log
            = p.log ++ Event.warning 1 msg_fallback ::
                (if b.has_init gotoblas_ZARCH_GENERIC then
                  [Event.warning 2 (lit "Core: ZARCH_GENERIC\n"),
                   Event.init_hook gotoblas_ZARCH_GENERIC]
                 else [Event.warning 0 msg_no_init]))
      ∧ msg_fallback
          = lit "Failed to detect system, falling back to generic z support.\n" := by
  refine ⟨?_, ?_, ?_, by decide⟩
  · unfold force_coretype_run force_coretype
    exact switch_returns b _ _ []
  · have h := switch_returns b (force_coretype_found s) [] []
    rw [List.append_nil] at h
    unfold force_coretype
    exact h
  · intro env p hunset hset hnone
    obtain ⟨g, log⟩ := p
    simp only at hunset
    subst hunset
    rw [init_unresolved b env s log hset hnone]
    have e3 : msg_core (corename_at 3) = lit "Core: ZARCH_GENERIC\n" := by decide
    cases b.has_init gotoblas_ZARCH_GENERIC <;> simp [e3]

/-- Witness of C17: the unresolved override `z15` on the full build. -/
theorem core_not_found_unreachable_witness :
    force_coretype_run full_build (lit "z15") = (some none, [])
      ∧ (gotoblas_dynamic_init full_build ⟨some (lit "z15"), none, 0⟩ fresh).1.log
          = [Event.warning 1 msg_fallback, Event.warning 2 (lit "Core: ZARCH_GENERIC\n"),
             Event.init_hook gotoblas_ZARCH_GENERIC] :=
  ⟨(core_not_found_unreachable full_build (lit "z15")).1.trans (by decide),
    ((core_not_found_unreachable full_build (lit "z15")).2.2.1
      ⟨some (lit "z15"), none, 0⟩ fresh rfl rfl (by decide)).trans (by decide)⟩

/-! ## The capability word and `LD_HWCAP_MASK` -/

theorem parse_digits_no_digit (c : Nat) (r : List Nat) (hc : is_dec_digit c = false) :
    parse_digits 10 (c :: r) 0 = 0 := by
  unfold is_dec_digit at hc
  simp only [Bool.and_eq_false_iff, decide_eq_false_iff_not] at hc
  unfold parse_digits digit_value
  split_ifs <;> simp <;> omega

theorem strtoul0_at_position (s : List Nat) :
    strtoul0 s =
      (let r := numeral_position s
       let based : Nat × List Nat :=
         match r with
         | 48 :: x :: r1 => if x = 120 ∨ x = 88 then (16, r1) else (8, r)
         | 48 :: [] => (8, r)
         | _ => (10, r)
       let v := parse_digits based.1 based.2 0
       if ULONG_MAX < v then ULONG_MAX
       else if (match s.dropWhile isspace with | 45 :: _ => true | _ => false)
         then (2 ^ 64 - v) % 2 ^ 64
       else v) := by
  unfold strtoul0 numeral_position
  generalize s.dropWhile isspace = s1
  split <;> simp_all


theorem strtoul0_no_numeral (s : List Nat) (h : no_leading_numeral s = true) :
    strtoul0 s = 0 := by
  rw [strtoul0_at_position]
  unfold no_leading_numeral at h
  generalize numeral_position s = r at h
  have hz : ¬ ULONG_MAX < 0 := by decide
  cases r with
  | nil => simp [parse_digits, hz]
  | cons c r1 =>
    have hc : is_dec_digit c = false := by simpa using h
    have h48 : c ≠ 48 := by
      intro e; subst e; exact absurd hc (by decide)
    have hp := parse_digits_no_digit c r1 hc
    have hb : (match c :: r1 with
        | 48 :: x :: r2 => if x = 120 ∨ x = 88 then (16, r2) else (8, c :: r1)
        | 48 :: [] => (8, c :: r1)
        | _ => ((10 : Nat), c :: r1)) = (10, c :: r1) := by
      split
      · simp_all
      · simp_all
      · rfl
    simp only [hb, hp, hz, if_false]
    split <;> simp

theorem positional_append_singleton (base x : Nat) (A : List Nat) :
    positional base (A ++ [x]) = positional base A + base ^ A.length * x := by
  induction A with
  | nil => simp [positional]
  | cons a A ih => simp [positional, ih]; ring

theorem parse_digits_all (base : Nat) (f : Nat → Nat) (L : List Nat) :
    ∀ acc : Nat, (∀ c ∈ L, digit_value c = some (f c) ∧ f c < base) →
      parse_digits base L acc = acc * base ^ L.length + positional base (L.reverse.map f) := by
  induction L with
  | nil => intro acc _; simp [parse_digits, positional]
  | cons c cs ih =>
    intro acc h
    have hc := h c (by simp)
    have ih1 := ih (acc * base + f c) (fun d hd => h d (by simp [hd]))
    simp only [parse_digits, hc.1, hc.2, if_true, ih1, List.reverse_cons, List.map_append,
      List.map_cons, List.map_nil, positional_append_singleton, List.length_map,
      List.length_reverse, List.length_cons]
    ring

theorem numeral_position_of_digit (c : Nat) (cs : List Nat) (hc : 48 ≤ c ∧ c ≤ 102) :
    numeral_position (c :: cs) = c :: cs
      ∧ (match (c :: cs).dropWhile isspace with | 45 :: _ => true | _ => false) = false := by
  have hs : isspace c = false := by
    unfold isspace
    simp only [Bool.or_eq_false_iff, beq_eq_false_iff_ne, Bool.and_eq_false_iff,
      decide_eq_false_iff_not]
    omega
  have hd : (c :: cs).dropWhile isspace = c :: cs := by simp [List.dropWhile, hs]
  unfold numeral_position
  rw [hd]
  constructor
  · split
    · simp_all
    · simp_all
    · rfl
  · split
    · simp_all
    · rfl


theorem dec_digit_value (c : Nat) (hc : is_dec_digit c = true) :
    digit_value c = some (c - 48) ∧ c - 48 < 10 := by
  unfold is_dec_digit at hc
  simp only [Bool.and_eq_true, decide_eq_true_eq] at hc
  unfold digit_value
  rw [if_pos hc]
  exact ⟨rfl, by omega⟩

theorem hex_digit_value_spec (c : Nat) (hc : is_hex_digit c = true) :
    digit_value c = some (hex_digit_value c) ∧ hex_digit_value c < 16 := by
  unfold is_hex_digit at hc
  simp only [Bool.or_eq_true, Bool.and_eq_true, decide_eq_true_eq] at hc
  unfold digit_value hex_digit_value
  split_ifs <;> refine ⟨?_, ?_⟩ <;> first | rfl | omega

/-- `strtoul` reads a decimal numeral as the number it denotes, clamped to
`ULONG_MAX`. -/
theorem strtoul0_decimal (s : List Nat) (m : Nat) (h : decimal_value s = some m) :
    strtoul0 s = min m ULONG_MAX := by
  cases s with
  | nil => simp [decimal_value] at h
  | cons c cs =>
    simp only [decimal_value] at h
    split at h
    · rename_i hcond
      simp only [Bool.and_eq_true, Bool.or_eq_true, bne_iff_ne, ne_eq, List.all_eq_true,
        List.isEmpty_iff] at hcond
      have hall := hcond.1
      have hc := hall c (by simp)
      have hcr : 48 ≤ c ∧ c ≤ 57 := by
        simpa [is_dec_digit] using hc
      have hpos := numeral_position_of_digit c cs ⟨hcr.1, by omega⟩
      have hv : positional 10 ((c :: cs).reverse.map (fun d => d - 48)) = m := by
        simpa using h
      rw [strtoul0_at_position, hpos.1, hpos.2]
      by_cases h48 : c = 48
      · subst h48
        have hcs : cs = [] := by
          rcases hcond.2 with h1 | h1
          · exact absurd rfl h1
          · exact h1
        subst hcs
        subst hv
        decide
      · have hb : (match c :: cs with
            | 48 :: x :: r2 => if x = 120 ∨ x = 88 then (16, r2) else (8, c :: cs)
            | 48 :: [] => (8, c :: cs)
            | _ => ((10 : Nat), c :: cs)) = (10, c :: cs) := by
          split
          · simp_all
          · simp_all
          · rfl
        have hp := parse_digits_all 10 (fun d => d - 48) (c :: cs) 0
          (fun d hd => dec_digit_value d (hall d hd))
        rw [hv] at hp
        simp only [hb, hp, Nat.zero_mul, Nat.zero_add, Bool.false_eq_true, if_false]
        split <;> omega
    · simp at h

/-- `strtoul` reads a hexadecimal numeral as the number it denotes, clamped to
`ULONG_MAX`. -/
theorem strtoul0_hex (s : List Nat) (m : Nat) (h : hex_value s = some m) :
    strtoul0 s = min m ULONG_MAX := by
  unfold hex_value at h
  split at h
  · rename_i x ds
    split at h
    · rename_i hcond
      simp only [Bool.and_eq_true, Bool.or_eq_true, beq_iff_eq, Bool.not_eq_true',
        List.all_eq_true] at hcond
      have hv : positional 16 (ds.reverse.map hex_digit_value) = m := by simpa using h
      have hpos := numeral_position_of_digit 48 (x :: ds) (by omega)
      rw [strtoul0_at_position, hpos.1, hpos.2]
      have hp := parse_digits_all 16 hex_digit_value ds 0
        (fun d hd => hex_digit_value_spec d (hcond.2 d hd))
      rw [hv] at hp
      have hx : x = 120 ∨ x = 88 := hcond.1.1
      simp only [hx, if_true, hp, Nat.zero_mul, Nat.zero_add, Bool.false_eq_true, if_false]
      split <;> omega
    · simp at h
  · simp at h

/-- C13, as stated, fails: the decimal numeral of `2^64` as mask leaves the
detected word `2^11` as it is, while the bitwise AND of the two is `0`. -/
theorem mask_numeral_saturates :
    decimal_value (lit "18446744073709551616") = some (2 ^ 64)
      ∧ get_hwcap full_build ⟨none, some (lit "18446744073709551616"), 2 ^ 11⟩ = 2 ^ 11
      ∧ 2 ^ 11 &&& 2 ^ 64 = 0
      ∧ get_hwcap full_build ⟨none, some (lit "18446744073709551616"), 2 ^ 11⟩
          ≠ 2 ^ 11 &&& 2 ^ 64 := by
  decide

/-- C13, amended: with `getauxval`, `get_hwcap` returns the detected word `d`
when `LD_HWCAP_MASK` is absent, and when it is a decimal or `0x`-prefixed
hexadecimal numeral of `m` it returns the bitwise AND of `d` with `m` clamped
to `ULONG_MAX` (so with `m` itself when `m` fits an `unsigned long`); in every
build and for every mask string, each flag set in the result is set in `d`. -/
theorem mask_only_restricts (b : Build) (env : Env) :
    (b.HAVE_GETAUXVAL = true → env.LD_HWCAP_MASK = none → get_hwcap b env = env.AT_HWCAP)
      ∧ (b.HAVE_GETAUXVAL = true → ∀ (s : List Nat) (m : Nat),
          env.LD_HWCAP_MASK = some s →
          (decimal_value s = some m ∨ hex_value s = some m) →
          get_hwcap b env = env.AT_HWCAP &&& min m ULONG_MAX
            ∧ (m ≤ ULONG_MAX → get_hwcap b env = env.AT_HWCAP &&& m))
      ∧ (∀ i, (get_hwcap b env).testBit i = true → env.AT_HWCAP.testBit i = true) := by
  refine ⟨?_, ?_, ?_⟩
  · intro haux habs
    simp [get_hwcap, haux, habs]
  · intro haux s m hs hnum
    have hv : strtoul0 s = min m ULONG_MAX := by
      rcases hnum with h | h
      · exact strtoul0_decimal s m h
      · exact strtoul0_hex s m h
    have hg : get_hwcap b env = env.AT_HWCAP &&& min m ULONG_MAX := by
      simp [get_hwcap, haux, hs, hv]
    refine ⟨hg, fun hm => ?_⟩
    rw [hg, Nat.min_eq_left hm]
  · intro i hi
    unfold get_hwcap at hi
    cases haux : b.HAVE_GETAUXVAL
    · simp [haux] at hi
    · cases hs : env.LD_HWCAP_MASK with
      | none => simpa [haux, hs] using hi
      | some s =>
        simp only [haux, hs, if_true, Nat.testBit_and, Bool.and_eq_true] at hi
        exact hi.1

/-- Witness of the amended C13: VX and VXE detected, the mask `0x800` keeps VX
only, the mask `2048` does the same. -/
theorem mask_only_restricts_witness :
    get_hwcap full_build ⟨none, some (lit "0x800"), 2 ^ 11 + 2 ^ 13⟩ = 2 ^ 11
      ∧ get_hwcap full_build ⟨none, some (lit "2048"), 2 ^ 11 + 2 ^ 13⟩ = 2 ^ 11
      ∧ get_hwcap full_build ⟨none, none, 2 ^ 11 + 2 ^ 13⟩ = 2 ^ 11 + 2 ^ 13 :=
  ⟨(((mask_only_restricts full_build ⟨none, some (lit "0x800"), 2 ^ 11 + 2 ^ 13⟩).2.1 rfl
      (lit "0x800") 2048 rfl (Or.inr (by decide))).2 (by decide)).trans (by decide),
   (((mask_only_restricts full_build ⟨none, some (lit "2048"), 2 ^ 11 + 2 ^ 13⟩).2.1 rfl
      (lit "2048") 2048 rfl (Or.inl (by decide))).2 (by decide)).trans (by decide),
   (mask_only_restricts full_build ⟨none, none, 2 ^ 11 + 2 ^ 13⟩).1 rfl rfl⟩

/-- C20: when `LD_HWCAP_MASK` is a string with no leading numeral, in every
build and for every detected word, `strtoul` with base 0 gives `0`, `get_hwcap`
returns `0`, `get_coretype` returns the generic kernel, and a call of
`gotoblas_dynamic_init` from the unset state without override selects it. -/
theorem unparsable_mask_disables (b : Build) (env : Env) (s : List Nat)
    (hmask : env.LD_HWCAP_MASK = some s) (hnum : no_leading_numeral s = true) :
    strtoul0 s = 0
      ∧ get_hwcap b env = 0
      ∧ get_coretype b (get_hwcap b env) = gotoblas_ZARCH_GENERIC
      ∧ (∀ p : Process, p.gotoblas = none → env.OPENBLAS_CORETYPE = none →
          (gotoblas_dynamic_init b env p).1.gotoblas = some gotoblas_ZARCH_GENERIC) := by
  have hz := strtoul0_no_numeral s hnum
  have hg : get_hwcap b env = 0 := by
    unfold get_hwcap
    cases b.HAVE_GETAUXVAL <;> simp [hmask, hz]
  have hc : get_coretype b (get_hwcap b env) = gotoblas_ZARCH_GENERIC := by
    rw [hg]; simp [get_coretype_testBit]
  refine ⟨hz, hg, hc, ?_⟩
  intro p hunset ho
  obtain ⟨g, log⟩ := p
  simp only at hunset
  subst hunset
  rw [init_unset_eq b env log]
  have hch : chosen_variant b env = gotoblas_ZARCH_GENERIC := by
    simp [chosen_variant, ho, hc]
  cases hh : b.has_init (chosen_variant b env) <;> simp [hch]

/-- Witness of C20: the masks `none` and the empty string, with VX and VXE
detected on the full build. -/
theorem unparsable_mask_disables_witness :
    (no_leading_numeral (lit "none") = true
        ∧ get_hwcap full_build ⟨none, some (lit "none"), 2 ^ 11 + 2 ^ 13⟩ = 0
        ∧ get_coretype full_build
            (get_hwcap full_build ⟨none, some (lit "none"), 2 ^ 11 + 2 ^ 13⟩)
            = gotoblas_ZARCH_GENERIC)
      ∧ no_leading_numeral (lit "") = true
      ∧ get_hwcap full_build ⟨none, some (lit ""), 2 ^ 11 + 2 ^ 13⟩ = 0 :=
  ⟨⟨by decide,
     (unparsable_mask_disables full_build ⟨none, some (lit "none"), 2 ^ 11 + 2 ^ 13⟩
        (lit "none") rfl (by decide)).2.1,
     (unparsable_mask_disables full_build ⟨none, some (lit "none"), 2 ^ 11 + 2 ^ 13⟩
        (lit "none") rfl (by decide)).2.2.1⟩,
   by decide,
   (unparsable_mask_disables full_build ⟨none, some (lit ""), 2 ^ 11 + 2 ^ 13⟩
      (lit "") rfl (by decide)).2.1⟩

end DynamicZarch
